import Mathlib

/-!
# Verification of the RealiTLScanner scanning core

Shallow embedding of the scanning core (feasibility prober, GeoIP resolver,
worker-pool cancellation) together with theorems checking the specification
claims against it.

Network and filesystem effects are modelled as explicit environment values:
each probe invocation receives the outcome of its DNS lookup, TCP dial,
deadline set, TLS handshake and GeoIP lookup as data, and the embedded
functions reproduce, branch for branch, what the Go source does with those
outcomes.
-/

/-- Host kind tag. Modelled from the spec: the address-stream collaborator
producing `Host` values is outside the scanning core source; the spec gives
the kind as IP | Domain. -/
inductive HostType where
  | ip
  | domain
deriving DecidableEq, Repr

/-- Modelled from the spec: one scan target. `ip` is the optional resolved
address (rendered as its string form, as the source only ever uses
`host.IP.String()`), `origin` the original input string, `kind` the tag
(`Host.Type` in the source; `Type` is reserved in Lean). -/
structure Host where
  ip : Option String
  origin : String
  kind : HostType
deriving DecidableEq, Repr

/-- `ScanConfig` from config.go. -/
structure ScanConfig where
  Port : Nat
  Thread : Nat
  Timeout : Nat
  EnableIPv6 : Bool
  Verbose : Bool
deriving DecidableEq, Repr

/-- `ScanResult` from config.go. -/
structure ScanResult where
  IP : String
  Origin : String
  Domain : String
  Issuer : String
  GeoCode : String
  Feasible : Bool
  TLSVersion : String
  ALPN : String
deriving DecidableEq, Repr

/-- Presence flags for the two callback fields the prober consults
(`OnResult`, `OnLog` in `ScanCallbacks`); the functions themselves are the
consumer's, so only their nil-ness matters to the core's control flow. -/
structure ScanCallbacksFlags where
  hasOnResult : Bool
  hasOnLog : Bool
deriving DecidableEq, Repr

/-- The part of `Scanner` (config.go) that `ScanTLSWithCallbacks` reads:
its config and its possibly-nil callback set. -/
structure ScannerM where
  config : ScanConfig
  callbacks : Option ScanCallbacksFlags
deriving DecidableEq, Repr

/-- `scanner.Callbacks != nil && scanner.Callbacks.OnLog != nil`. -/
def ScannerM.onLogSet (s : ScannerM) : Bool :=
  match s.callbacks with
  | none => false
  | some c => c.hasOnLog

/-- `scanner.Callbacks != nil && scanner.Callbacks.OnResult != nil`. -/
def ScannerM.onResultSet (s : ScannerM) : Bool :=
  match s.callbacks with
  | none => false
  | some c => c.hasOnResult

/-- The fields of an x509 certificate the prober reads. -/
structure Cert where
  subjectCommonName : String
  issuerOrganization : List String
deriving DecidableEq, Repr

/-- The fields of `tls.ConnectionState` the prober reads. -/
structure ConnState where
  version : Nat
  negotiatedProtocol : String
  peerCerts : List Cert
deriving DecidableEq, Repr

/-- Outcomes of the effectful steps of one probe, supplied as data: the DNS
lookup result (consulted only when `host.ip` is absent; `none` is failure),
success of the TCP dial, of `SetDeadline`, and of the TLS handshake, the
connection state observed after a successful handshake, and the GeoIP
answer for the host's address. -/
structure ProbeEnv where
  lookupIPResult : Option String
  dialOk : Bool
  setDeadlineOk : Bool
  handshakeOk : Bool
  connState : ConnState
  geoCode : String
deriving DecidableEq, Repr

/-- `tls.VersionTLS13`. -/
def versionTLS13 : Nat := 0x0304

/-- Uppercase hexadecimal digit. -/
def hexDigit (n : Nat) : Char :=
  if n < 10 then Char.ofNat (48 + n) else Char.ofNat (55 + n)

/-- Four-digit uppercase hexadecimal rendering, as Go's `%04X` for values
below 2^16. -/
def hex4 (v : Nat) : String :=
  String.mk [hexDigit (v / 4096 % 16), hexDigit (v / 256 % 16),
    hexDigit (v / 16 % 16), hexDigit (v % 16)]

/-- `tls.VersionName` from the Go standard library (a black-box collaborator
of the source; reproduced here because the probers embed its output in
results and log lines). -/
def versionName (v : Nat) : String :=
  if v = 0x0300 then "SSLv3"
  else if v = 0x0301 then "TLS 1.0"
  else if v = 0x0302 then "TLS 1.1"
  else if v = 0x0303 then "TLS 1.2"
  else if v = 0x0304 then "TLS 1.3"
  else "0x" ++ hex4 (v % 2 ^ 16)

/-- `net.JoinHostPort`: brackets the host when it contains a colon. -/
def joinHostPort (host : String) (port : Nat) : String :=
  if host.data.contains ':' then "[" ++ host ++ "]:" ++ toString port
  else host ++ ":" ++ toString port

/-- Events emitted through the callback bus by `ScanTLSWithCallbacks`. -/
inductive GuiEvent where
  | log (level : String) (message : String)
  | result (r : ScanResult)
deriving DecidableEq, Repr

/-- The log line built at the end of `ScanTLSWithCallbacks`. -/
def connectedMsg (ip origin tlsVersion alpn domain issuers geoCode : String)
    (feasible : Bool) : String :=
  "Connected: " ++ ip ++ " | " ++ origin ++ " | TLS:" ++ tlsVersion ++
    " ALPN:" ++ alpn ++ " | Domain:" ++ domain ++ " | Issuer:" ++ issuers ++
    " | Geo:" ++ geoCode ++ " | Feasible:" ++ (if feasible then "true" else "false")

/-- The address a probe works with: the host's own resolved address when
present, otherwise the outcome of the `LookupIP` call (`none` = resolution
failure). Shared by both probers, which begin with the same block. -/
def resolvedIP (host : Host) (env : ProbeEnv) : Option String :=
  match host.ip with
  | some ip => some ip
  | none => env.lookupIPResult

/-- The feasibility conjunction computed at line 130 of the prober source. -/
def feasibleFlag (version : Nat) (alpn domain issuers : String) : Bool :=
  version == versionTLS13 && alpn == "h2" &&
    decide (domain.length > 0) && decide (issuers.length > 0)

/-- `ScanTLSWithCallbacks` from the prober source file, as a function from
the probe's effect outcomes to the list of callback-bus events it emits, in
emission order. -/
def ScanTLSWithCallbacks (host : Host) (scanner : ScannerM) (env : ProbeEnv) :
    List GuiEvent :=
  match resolvedIP host env with
  | none =>
      if scanner.onLogSet then
        [GuiEvent.log "debug" ("Failed to get IP from " ++ host.origin)]
      else []
  | some ip =>
      let hostPort := joinHostPort ip scanner.config.Port
      if !env.dialOk then
        if scanner.onLogSet && scanner.config.Verbose then
          [GuiEvent.log "debug" ("Cannot dial " ++ hostPort)]
        else []
      else if !env.setDeadlineOk then
        []
      else if !env.handshakeOk then
        if scanner.onLogSet && scanner.config.Verbose then
          [GuiEvent.log "debug" ("TLS handshake failed for " ++ hostPort)]
        else []
      else
        let st := env.connState
        let alpn := st.negotiatedProtocol
        match st.peerCerts with
        | [] =>
            if scanner.onLogSet && scanner.config.Verbose then
              [GuiEvent.log "debug" ("No peer certificates for " ++ hostPort)]
            else []
        | c :: _ =>
            let domain := c.subjectCommonName
            let issuers := String.intercalate " | " c.issuerOrganization
            let geoCode := env.geoCode
            let tlsVersion := versionName st.version
            let feasible := feasibleFlag st.version alpn domain issuers
            let result : ScanResult :=
              { IP := ip, Origin := host.origin, Domain := domain,
                Issuer := issuers, GeoCode := geoCode, Feasible := feasible,
                TLSVersion := tlsVersion, ALPN := alpn }
            (if scanner.onResultSet then [GuiEvent.result result] else []) ++
              (if scanner.onLogSet then
                if !feasible && !scanner.config.Verbose then []
                else
                  [GuiEvent.log (if !feasible then "debug" else "info")
                    (connectedMsg ip host.origin tlsVersion alpn domain issuers
                      geoCode feasible)]
              else [])

/-- Events of the legacy channel-based prober `ScanTLS`: slog calls (message
text only; structured attributes elided) and rows sent to the output
channel. -/
inductive CliEvent where
  | slogEvent (level : String) (message : String)
  | outRow (row : String)
deriving DecidableEq, Repr

/-- Outcome of one `ScanTLS` invocation: the events it emitted, and whether
it panicked (Go runtime fault, e.g. an out-of-range index). -/
structure CliOutcome where
  events : List CliEvent
  panicked : Bool
deriving DecidableEq, Repr

/-- `ScanTLS` from the prober source file. The unguarded
`state.PeerCertificates[0]` on line 50 is modelled as a panic outcome when
the peer-certificate list is empty. -/
def ScanTLS (host : Host) (_config : ScanConfig) (env : ProbeEnv) : CliOutcome :=
  match resolvedIP host env with
  | none =>
      { events := [CliEvent.slogEvent "debug" "Failed to get IP from the origin"],
        panicked := false }
  | some ip =>
      if !env.dialOk then
        { events := [CliEvent.slogEvent "debug" "Cannot dial"], panicked := false }
      else if !env.setDeadlineOk then
        { events := [CliEvent.slogEvent "error" "Error setting deadline"],
          panicked := false }
      else if !env.handshakeOk then
        { events := [CliEvent.slogEvent "debug" "TLS handshake failed"],
          panicked := false }
      else
        let st := env.connState
        let alpn := st.negotiatedProtocol
        match st.peerCerts with
        | [] => { events := [], panicked := true }
        | c :: _ =>
            let domain := c.subjectCommonName
            let issuers := String.intercalate " | " c.issuerOrganization
            let geoCode := env.geoCode
            let infeasible := !(st.version == versionTLS13) || !(alpn == "h2") ||
              domain.length == 0 || issuers.length == 0
            let row := String.intercalate ","
                [ip, host.origin, domain, "\"" ++ issuers ++ "\"", geoCode] ++ "\n"
            let logLevel := if infeasible then "debug" else "info"
            { events :=
                (if infeasible then [] else [CliEvent.outRow row]) ++
                  [CliEvent.slogEvent logLevel "Connected to target"],
              panicked := false }

/-- Filesystem state at the two well-known GeoIP paths (`Country.mmdb` and
`Country.mmdb.tmp`). Contents are byte lists; `none` means the file does not
exist. -/
structure GeoFs where
  final : Option (List Nat)
  temp : Option (List Nat)
deriving DecidableEq, Repr

/-- Environment of one `downloadCountryDB` call: the HTTP GET outcome
(`none` = transport error, otherwise the status code), success of
`os.Create` on the temp path, the sequence of body reads (each chunk paired
with the success of the `Write` that follows it), whether the read loop ends
in a read error (`true`) or in EOF (`false`), and the outcome of the final
rename. -/
structure DownloadEnv where
  getStatus : Option Nat
  createOk : Bool
  reads : List (List Nat × Bool)
  readErrAtEnd : Bool
  renameOk : Bool
deriving DecidableEq, Repr

/-- The copy loop of `downloadCountryDB`: accumulate successfully written
chunks; a failed write or a terminal read error aborts with the
corresponding wrapped error message. -/
def downloadWriteLoop : List (List Nat × Bool) → Bool → List Nat →
    Except String (List Nat)
  | [], readErrAtEnd, acc =>
      if readErrAtEnd then Except.error "failed to read" else Except.ok acc
  | (chunk, writeOk) :: rest, readErrAtEnd, acc =>
      if writeOk then downloadWriteLoop rest readErrAtEnd (acc ++ chunk)
      else Except.error "failed to write"

/-- `downloadCountryDB` from geo.go, as a function of the transfer
environment and the filesystem state at the two paths. Failed writes and
reads call `os.Remove` on the temp path before returning the error; only
the final `os.Rename` touches the final path. -/
def downloadCountryDB (env : DownloadEnv) (fs : GeoFs) :
    Except String Unit × GeoFs :=
  match env.getStatus with
  | none => (Except.error "failed to download", fs)
  | some status =>
      if status != 200 then (Except.error "bad status code", fs)
      else if !env.createOk then (Except.error "failed to create temp file", fs)
      else
        match downloadWriteLoop env.reads env.readErrAtEnd [] with
        | Except.error e => (Except.error e, { fs with temp := none })
        | Except.ok data =>
            if env.renameOk then
              (Except.ok (), { final := some data, temp := none })
            else
              (Except.error "failed to rename", { fs with temp := none })

/-- Outcome of `os.Stat` on the local database path. -/
inductive StatResult where
  | absent
  | statFailed
  | size (n : Nat)
deriving DecidableEq, Repr

/-- Environment of one `needsUpdate` call: the local stat outcome, the HEAD
request outcome (`none` = transport failure), and the response's
`ContentLength`. -/
structure NeedsUpdateEnv where
  stat : StatResult
  headStatus : Option Nat
  contentLength : Int
deriving DecidableEq, Repr

/-- `needsUpdate` from geo.go, returning (needUpdate, errored). A missing
local file needs a download without any network check; every remote-check
failure resolves to "keep the old database". -/
def needsUpdate (env : NeedsUpdateEnv) : Bool × Bool :=
  match env.stat with
  | StatResult.absent => (true, false)
  | StatResult.statFailed => (false, true)
  | StatResult.size localSize =>
      match env.headStatus with
      | none => (false, false)
      | some status =>
          if status != 200 then (false, false)
          else if env.contentLength ≤ 0 then (false, false)
          else if (localSize : Int) != env.contentLength then (true, false)
          else (false, false)

/-- The `Geo` struct's reader field: a nil-able handle to an open database
reader, identified by number. The guarding mutex is modelled in the
interleaving semantics further down. -/
structure Geo where
  geoReader : Option Nat
deriving DecidableEq, Repr

/-- Outcome of one `geoip2.Reader.Country` call at the library boundary:
an error, or the returned record's ISO country code. -/
inductive CountryOutcome where
  | fail
  | code (iso : String)
deriving DecidableEq, Repr

/-- `GetGeo` from geo.go: the sentinel on a nil reader, the sentinel on a
lookup error, otherwise the ISO code from the record. -/
def GetGeo (o : Geo) (country : CountryOutcome) : String :=
  match o.geoReader with
  | none => "N/A"
  | some _ =>
      match country with
      | CountryOutcome.fail => "N/A"
      | CountryOutcome.code iso => iso

/-- Environment of one `NewGeo` call: the `needsUpdate` environment, the
`downloadCountryDB` environment, and the outcome of `geoip2.Open` on the
final path (`none` = open error). -/
structure GeoOpenEnv where
  nu : NeedsUpdateEnv
  dl : DownloadEnv
  openResult : Option Nat
deriving DecidableEq, Repr

/-- `NewGeo` from geo.go: check staleness, download when needed (a download
failure is only warned about, never propagated), then open the database; an
open failure leaves the reader nil and still returns the `Geo` value. -/
def NewGeo (env : GeoOpenEnv) (fs : GeoFs) : Geo × GeoFs :=
  let needUpdate := (needsUpdate env.nu).1
  let fs2 := if needUpdate then (downloadCountryDB env.dl fs).2 else fs
  match env.openResult with
  | none => ({ geoReader := none }, fs2)
  | some r => ({ geoReader := some r }, fs2)

/-- A scan run's cancellation token (`context.WithCancel` in `NewScanner`):
`cancelledAt = some k` means `cancel()` was called at step `k` of the global
step clock; the derived done-signal is level-triggered. -/
structure CancelToken where
  cancelledAt : Option Nat
deriving DecidableEq, Repr

/-- The persistent done-signal of the token as seen at step `i`: closed from
the cancellation step onwards, never reopening. -/
def CancelToken.done (t : CancelToken) (i : Nat) : Bool :=
  match t.cancelledAt with
  | none => false
  | some k => decide (k ≤ i)

/-- `Scanner.Stop` from config.go at step `now`: cancels the token — a
second call is a no-op, as for `context.CancelFunc` — and touches nothing
else; in particular it neither consults nor waits for worker state. -/
def ScannerStop (t : CancelToken) (now : Nat) : CancelToken :=
  match t.cancelledAt with
  | none => { cancelledAt := some now }
  | some k => { cancelledAt := some k }

/-- One worker goroutine of `runScan` (gui.go): receive the next host from
the shared stream, then select on the done-channel — return if it is
closed, otherwise probe the host and loop. Returns the list of hosts the
worker actually probes; `i` is the step at which the worker makes its
i-th done-check. -/
def workerRun (t : CancelToken) : List Host → Nat → List Host
  | [], _ => []
  | h :: rest, i => if t.done i then [] else h :: workerRun t rest (i + 1)

/-- Program counter of one `GetGeo` call in the interleaving model. -/
inductive LookupPc where
  | start
  | acquiring
  | locked
  | unlocking
  | finished
deriving DecidableEq, Repr

/-- Program counter of the reader-swap section of `CheckAndUpdate` (the
branch taken after a successful download). -/
inductive RefreshPc where
  | start
  | locked
  | closedOld
  | installed
  | finished
deriving DecidableEq, Repr

/-- Shared state of one `GetGeo` call racing the swap section of one
`CheckAndUpdate` call. Reader objects are numbered: `0` is the one
installed before the race, `1` the one the refresh opens. `observed`
records, at the moment the lookup performs its locked read of the handle,
the handle value it read paired with whether the reader object it refers to
had already been closed at that moment. -/
structure GeoRace where
  lockHeldByLookup : Bool
  lockHeldByRefresh : Bool
  handle : Option Nat
  closed0 : Bool
  lpc : LookupPc
  rpc : RefreshPc
  observed : Option (Nat × Bool)
deriving DecidableEq, Repr

/-- One atomic step of the `GetGeo` thread: the unlocked nil-check of
`o.geoReader` (line 161 of geo.go), the `mu.Lock()`, the locked read of
`o.geoReader` for the `Country` call, and the deferred `mu.Unlock()`. A
thread blocked on the mutex does not advance. -/
def lookupStep (s : GeoRace) : GeoRace :=
  match s.lpc with
  | LookupPc.start =>
      match s.handle with
      | none => { s with lpc := LookupPc.finished }
      | some _ => { s with lpc := LookupPc.acquiring }
  | LookupPc.acquiring =>
      if s.lockHeldByRefresh || s.lockHeldByLookup then s
      else { s with lockHeldByLookup := true, lpc := LookupPc.locked }
  | LookupPc.locked =>
      match s.handle with
      | none => { s with lpc := LookupPc.unlocking }
      | some h =>
          let ob := some (h, if h = 0 then s.closed0 else false)
          { s with lpc := LookupPc.unlocking, observed := ob }
  | LookupPc.unlocking =>
      { s with lockHeldByLookup := false, lpc := LookupPc.finished }
  | LookupPc.finished => s

/-- One atomic step of the `CheckAndUpdate` thread inside its update branch:
the `mu.Lock()`, the nil-guarded `Close()` of the old reader, the
`geoip2.Open` of the fresh file plus handle store (installing reader `1`
when the open succeeds, leaving the handle untouched when it fails), and
the deferred `mu.Unlock()`. A thread blocked on the mutex does not
advance. -/
def refreshStep (openOk : Bool) (s : GeoRace) : GeoRace :=
  match s.rpc with
  | RefreshPc.start =>
      if s.lockHeldByLookup || s.lockHeldByRefresh then s
      else { s with lockHeldByRefresh := true, rpc := RefreshPc.locked }
  | RefreshPc.locked =>
      match s.handle with
      | some 0 => { s with closed0 := true, rpc := RefreshPc.closedOld }
      | _ => { s with rpc := RefreshPc.closedOld }
  | RefreshPc.closedOld =>
      if openOk then { s with handle := some 1, rpc := RefreshPc.installed }
      else { s with rpc := RefreshPc.installed }
  | RefreshPc.installed =>
      { s with lockHeldByRefresh := false, rpc := RefreshPc.finished }
  | RefreshPc.finished => s

/-- Initial state of the race: reader `0` installed and open, mutex free,
both threads at their entry points, nothing observed yet. -/
def geoRaceInit : GeoRace :=
  { lockHeldByLookup := false, lockHeldByRefresh := false, handle := some 0,
    closed0 := false, lpc := LookupPc.start, rpc := RefreshPc.start,
    observed := none }

/-- Interleaved execution: the scheduler word picks, step by step, which
thread advances (`true` = the lookup thread). -/
def geoRaceRun (openOk : Bool) (sched : List Bool) : GeoRace :=
  sched.foldl (fun s w => if w then lookupStep s else refreshStep openOk s)
    geoRaceInit

/-- A probe environment in which the handshake phase is reached and the
handshake completes: the address resolves, the dial succeeds, the deadline
is set, and `Handshake()` returns no error. -/
def handshakeCompleted (host : Host) (env : ProbeEnv) : Bool :=
  (resolvedIP host env).isSome && env.dialOk && env.setDeadlineOk &&
    env.handshakeOk

/-- Number of result events in a callback-event list. -/
def countResults (events : List GuiEvent) : Nat :=
  (events.filter fun e =>
    match e with
    | GuiEvent.result _ => true
    | GuiEvent.log _ _ => false).length

/-- The levels of the log events of a callback-event list, in order. -/
def logLevels (events : List GuiEvent) : List String :=
  events.filterMap fun e =>
    match e with
    | GuiEvent.log lvl _ => some lvl
    | GuiEvent.result _ => none

theorem feasibleFlag_iff (v : Nat) (a d i : String) :
    feasibleFlag v a d i = true ↔
      (v = versionTLS13 ∧ a = "h2" ∧ d.length > 0 ∧ i.length > 0) := by
  simp [feasibleFlag, Bool.and_eq_true, beq_iff_eq, decide_eq_true_eq, and_assoc]

/-- C1: for every completed handshake, the emitted result's `Feasible` flag
holds iff the negotiated version is TLS 1.3, the negotiated ALPN is exactly
"h2", the leaf certificate common name is non-empty, and the joined issuer
organization string is non-empty — stated for every result event the prober
can emit, which covers all sixteen boolean combinations of the four
predicates at once. -/
theorem scan_result_feasible_iff (host : Host) (scanner : ScannerM)
    (env : ProbeEnv) (res : ScanResult)
    (hmem : GuiEvent.result res ∈ ScanTLSWithCallbacks host scanner env) :
    res.Feasible = true ↔
      (env.connState.version = versionTLS13 ∧ res.ALPN = "h2" ∧
        res.Domain.length > 0 ∧ res.Issuer.length > 0) := by
  unfold ScanTLSWithCallbacks at hmem
  rcases hres : resolvedIP host env with _ | ip <;> rw [hres] at hmem
  · split at hmem <;> simp_all
  · rcases hdial : env.dialOk with _ | _ <;> simp only [hdial] at hmem
    · split at hmem <;> simp_all
    · rcases hdl : env.setDeadlineOk with _ | _ <;> simp only [hdl] at hmem
      · simp_all
      · rcases hhs : env.handshakeOk with _ | _ <;> simp only [hhs] at hmem
        · split at hmem <;> simp_all
        · simp only [Bool.not_true, Bool.false_eq_true, if_false] at hmem
          rcases hcerts : env.connState.peerCerts with _ | ⟨c, cs⟩ <;>
            rw [hcerts] at hmem
          · split at hmem <;> simp_all
          · simp only [List.mem_append] at hmem
            rcases hmem with hmem | hmem
            · split at hmem <;> simp only [List.mem_singleton,
                List.not_mem_nil] at hmem
              cases hmem
              simp only []
              exact feasibleFlag_iff _ _ _ _
            · split at hmem
              · split at hmem <;> simp_all
              · simp_all

theorem scan_result_feasible_iff_witness :
    (GuiEvent.result
        { IP := "1.1.1.1", Origin := "1.1.1.1", Domain := "cloudflare-dns.com",
          Issuer := "Cloudflare, Inc.", GeoCode := "US", Feasible := true,
          TLSVersion := "TLS 1.3", ALPN := "h2" } ∈
      ScanTLSWithCallbacks ⟨some "1.1.1.1", "1.1.1.1", HostType.ip⟩
        ⟨⟨443, 2, 10, false, false⟩, some ⟨true, true⟩⟩
        ⟨none, true, true, true,
          ⟨0x0304, "h2", [⟨"cloudflare-dns.com", ["Cloudflare, Inc."]⟩]⟩,
          "US"⟩) ∧
    ((ScanResult.Feasible
        { IP := "1.1.1.1", Origin := "1.1.1.1", Domain := "cloudflare-dns.com",
          Issuer := "Cloudflare, Inc.", GeoCode := "US", Feasible := true,
          TLSVersion := "TLS 1.3", ALPN := "h2" } = true) ↔
      ((0x0304 : Nat) = versionTLS13 ∧ ("h2" : String) = "h2" ∧
        ("cloudflare-dns.com" : String).length > 0 ∧
        ("Cloudflare, Inc." : String).length > 0)) :=
  ⟨by decide,
    scan_result_feasible_iff ⟨some "1.1.1.1", "1.1.1.1", HostType.ip⟩
      ⟨⟨443, 2, 10, false, false⟩, some ⟨true, true⟩⟩
      ⟨none, true, true, true,
        ⟨0x0304, "h2", [⟨"cloudflare-dns.com", ["Cloudflare, Inc."]⟩]⟩, "US"⟩
      _ (by decide)⟩

/-- C2 (amended): the prober emits at most one result event per invocation,
and none at all when the probe fails at resolution, dial, deadline set, or
handshake — so the number of emitted results never exceeds the number of
hosts whose handshake completed. -/
theorem result_count_le_completed_handshake (host : Host) (scanner : ScannerM)
    (env : ProbeEnv) :
    countResults (ScanTLSWithCallbacks host scanner env) ≤
      if handshakeCompleted host env then 1 else 0 := by
  unfold ScanTLSWithCallbacks handshakeCompleted
  rcases hres : resolvedIP host env with _ | ip
  · simp only [Option.isSome_none, Bool.false_and, Bool.false_eq_true,
      reduceIte]
    split <;> simp [countResults]
  · rcases hdial : env.dialOk with _ | _
    · simp only [Option.isSome_some, Bool.true_and, Bool.false_and,
        Bool.not_false, Bool.false_eq_true, reduceIte]
      split <;> simp [countResults]
    · rcases hdl : env.setDeadlineOk with _ | _
      · simp [countResults]
      · rcases hhs : env.handshakeOk with _ | _
        · simp only [Option.isSome_some, Bool.true_and, Bool.and_false,
            Bool.and_true, Bool.not_false, Bool.not_true, Bool.false_eq_true,
            reduceIte]
          split <;> simp [countResults]
        · simp only [Option.isSome_some, Bool.true_and, Bool.and_true,
            Bool.not_true, Bool.false_eq_true, reduceIte]
          split
          · split <;> simp [countResults]
          · simp only [countResults, List.filter_append, List.length_append]
            split <;> split <;> (try split) <;> simp

/-- C2 counterexample: a probe whose handshake completed (all stages up to
and including the handshake succeeded) but whose peer-certificate list is
empty emits zero result events, refuting "a ScanResult is produced exactly
once per host whose handshake completed". -/
theorem completed_handshake_without_result :
    handshakeCompleted ⟨some "1.2.3.4", "1.2.3.4", HostType.ip⟩
        ⟨none, true, true, true, ⟨0x0304, "h2", []⟩, "N/A"⟩ = true ∧
    countResults
      (ScanTLSWithCallbacks ⟨some "1.2.3.4", "1.2.3.4", HostType.ip⟩
        ⟨⟨443, 2, 10, false, true⟩, some ⟨true, true⟩⟩
        ⟨none, true, true, true, ⟨0x0304, "h2", []⟩, "N/A"⟩) = 0 := by
  decide

/-- C3: when the handshake completes with at least one peer certificate and
both sinks are set, the result event is emitted whatever the feasible flag;
the log event is at info level when feasible and at debug level when not;
and with `Verbose = false` an infeasible probe emits no log event while
still emitting its result event. -/
theorem result_emitted_regardless_of_feasible (host : Host)
    (scanner : ScannerM) (env : ProbeEnv) (c : Cert) (cs : List Cert)
    (hhs : handshakeCompleted host env = true)
    (hcerts : env.connState.peerCerts = c :: cs)
    (hr : scanner.onResultSet = true) (hl : scanner.onLogSet = true) :
    countResults (ScanTLSWithCallbacks host scanner env) = 1 ∧
    (feasibleFlag env.connState.version env.connState.negotiatedProtocol
        c.subjectCommonName (String.intercalate " | " c.issuerOrganization) =
          true →
      logLevels (ScanTLSWithCallbacks host scanner env) = ["info"]) ∧
    (feasibleFlag env.connState.version env.connState.negotiatedProtocol
        c.subjectCommonName (String.intercalate " | " c.issuerOrganization) =
          false →
      scanner.config.Verbose = true →
        logLevels (ScanTLSWithCallbacks host scanner env) = ["debug"]) ∧
    (feasibleFlag env.connState.version env.connState.negotiatedProtocol
        c.subjectCommonName (String.intercalate " | " c.issuerOrganization) =
          false →
      scanner.config.Verbose = false →
        logLevels (ScanTLSWithCallbacks host scanner env) = []) := by
  unfold handshakeCompleted at hhs
  rcases hres : resolvedIP host env with _ | ip <;> rw [hres] at hhs
  · simp at hhs
  · simp only [Option.isSome_some, Bool.true_and, Bool.and_eq_true] at hhs
    obtain ⟨⟨hdial, hdl⟩, hhsk⟩ := hhs
    unfold ScanTLSWithCallbacks
    rw [hres, hdial, hdl, hhsk]
    simp only [Bool.not_true, Bool.false_eq_true, reduceIte]
    rw [hcerts]
    rw [hr, hl]
    rcases hf : feasibleFlag env.connState.version
        env.connState.negotiatedProtocol c.subjectCommonName
        (String.intercalate " | " c.issuerOrganization) with _ | _ <;>
      rcases hv : scanner.config.Verbose with _ | _ <;>
      simp [countResults, logLevels, hf, hv, List.filter_append]

theorem result_emitted_regardless_of_feasible_witness :
    countResults
        (ScanTLSWithCallbacks ⟨some "2.2.2.2", "2.2.2.2", HostType.ip⟩
          ⟨⟨443, 2, 10, false, false⟩, some ⟨true, true⟩⟩
          ⟨none, true, true, true,
            ⟨0x0304, "http/1.1", [⟨"example.com", ["Org"]⟩]⟩, "US"⟩) = 1 ∧
    logLevels
        (ScanTLSWithCallbacks ⟨some "2.2.2.2", "2.2.2.2", HostType.ip⟩
          ⟨⟨443, 2, 10, false, false⟩, some ⟨true, true⟩⟩
          ⟨none, true, true, true,
            ⟨0x0304, "http/1.1", [⟨"example.com", ["Org"]⟩]⟩, "US"⟩) = [] := by
  have h := result_emitted_regardless_of_feasible
    ⟨some "2.2.2.2", "2.2.2.2", HostType.ip⟩
    ⟨⟨443, 2, 10, false, false⟩, some ⟨true, true⟩⟩
    ⟨none, true, true, true,
      ⟨0x0304, "http/1.1", [⟨"example.com", ["Org"]⟩]⟩, "US"⟩
    ⟨"example.com", ["Org"]⟩ [] (by decide) (by decide) (by decide) (by decide)
  exact ⟨h.1, h.2.2.2 (by decide) (by decide)⟩

/-- C4 (code bug): on a completed handshake that presents zero peer
certificates, the legacy channel-based prober `ScanTLS` dereferences
`PeerCertificates[0]` without a guard and panics, emitting nothing —
against the spec's "require at least one peer certificate; its absence is
logged at debug level and treated as a non-result". The callback-based
prober implements the intended guard: same probe outcome, a debug log (in
verbose mode) and no result. -/
theorem scanTLS_panics_on_empty_certs :
    (ScanTLS ⟨some "2.2.2.2", "2.2.2.2", HostType.ip⟩ ⟨443, 2, 10, false, false⟩
        ⟨none, true, true, true, ⟨0x0304, "h2", []⟩, "N/A"⟩).panicked = true ∧
    (ScanTLS ⟨some "2.2.2.2", "2.2.2.2", HostType.ip⟩ ⟨443, 2, 10, false, false⟩
        ⟨none, true, true, true, ⟨0x0304, "h2", []⟩, "N/A"⟩).events = [] ∧
    ScanTLSWithCallbacks ⟨some "2.2.2.2", "2.2.2.2", HostType.ip⟩
        ⟨⟨443, 2, 10, false, true⟩, some ⟨true, true⟩⟩
        ⟨none, true, true, true, ⟨0x0304, "h2", []⟩, "N/A"⟩ =
      [GuiEvent.log "debug" "No peer certificates for 2.2.2.2:443"] := by
  decide

theorem downloadWriteLoop_ok (reads : List (List Nat × Bool)) (rerr : Bool)
    (acc data : List Nat)
    (h : downloadWriteLoop reads rerr acc = Except.ok data) :
    data = acc ++ (reads.map Prod.fst).flatten := by
  induction reads generalizing acc with
  | nil =>
      unfold downloadWriteLoop at h
      split at h <;> simp_all
  | cons hd tl ih =>
      obtain ⟨chunk, wok⟩ := hd
      unfold downloadWriteLoop at h
      split at h
      · have hdata := ih _ h
        simp [hdata, List.append_assoc]
      · cases h

/-- C5: the download streams to the temp path; any error return leaves the
final database file unchanged; any write, read, or rename error after the
temp file was created also deletes the temp file; only full success renames
the downloaded bytes over the final path (removing the temp entry). -/
theorem download_preserves_final_on_error (env : DownloadEnv) (fs : GeoFs) :
    (∀ e, (downloadCountryDB env fs).1 = Except.error e →
        (downloadCountryDB env fs).2.final = fs.final) ∧
    ((downloadCountryDB env fs).1 = Except.ok () →
        (downloadCountryDB env fs).2.final =
            some ((env.reads.map Prod.fst).flatten) ∧
          (downloadCountryDB env fs).2.temp = none) ∧
    (env.getStatus = some 200 → env.createOk = true →
      ∀ e, (downloadCountryDB env fs).1 = Except.error e →
        (downloadCountryDB env fs).2.temp = none) := by
  unfold downloadCountryDB
  rcases hg : env.getStatus with _ | status
  · simp
  · by_cases h200 : status = 200
    · subst h200
      simp only [bne_self_eq_false, Bool.false_eq_true, reduceIte]
      rcases hcr : env.createOk with _ | _
      · simp
      · simp only [Bool.not_true, Bool.false_eq_true, reduceIte]
        rcases hloop : downloadWriteLoop env.reads env.readErrAtEnd [] with e | data
        · simp
        · have hdata := downloadWriteLoop_ok _ _ _ _ hloop
          rcases hrn : env.renameOk with _ | _ <;>
            simp_all
    · have hne : (status != 200) = true := by
        simpa using h200
      simp [hne, h200]

theorem download_preserves_final_on_error_witness :
    (downloadCountryDB
        ⟨some 200, true, [([1, 2], true), ([3], false)], false, true⟩
        ⟨some [9], some [7]⟩).2.final = some [9] ∧
    (downloadCountryDB
        ⟨some 200, true, [([1, 2], true), ([3], false)], false, true⟩
        ⟨some [9], some [7]⟩).2.temp = none := by
  refine ⟨?_, ?_⟩
  · exact (download_preserves_final_on_error
      ⟨some 200, true, [([1, 2], true), ([3], false)], false, true⟩
      ⟨some [9], some [7]⟩).1 "failed to write" rfl
  · exact (download_preserves_final_on_error
      ⟨some 200, true, [([1, 2], true), ([3], false)], false, true⟩
      ⟨some [9], some [7]⟩).2.2 rfl rfl "failed to write" rfl

/-- C6: `GetGeo` never raises — it returns the sentinel "N/A" whenever the
reader is nil (disabled resolver) or the library lookup comes back on its
error side (which is how an address missing from the database surfaces at
this boundary), and the record's country code otherwise; and whatever
happens to the staleness check and download (e.g. unreachable remote),
`NewGeo` completes, degrading to a nil reader exactly when the open of the
local file fails, in which case every lookup returns "N/A". -/
theorem getGeo_sentinel_and_degraded_open :
    (∀ (g : Geo) (c : CountryOutcome), g.geoReader = none → GetGeo g c = "N/A") ∧
    (∀ (g : Geo) (r : Nat), g.geoReader = some r →
        GetGeo g CountryOutcome.fail = "N/A") ∧
    (∀ (g : Geo) (r : Nat) (iso : String), g.geoReader = some r →
        GetGeo g (CountryOutcome.code iso) = iso) ∧
    (∀ (env : GeoOpenEnv) (fs : GeoFs), env.openResult = none →
        (NewGeo env fs).1.geoReader = none ∧
          ∀ c, GetGeo (NewGeo env fs).1 c = "N/A") ∧
    (∀ (env : GeoOpenEnv) (fs : GeoFs) (r : Nat), env.openResult = some r →
        (NewGeo env fs).1.geoReader = some r) := by
  refine ⟨?_, ?_, ?_, ?_, ?_⟩
  · intro g c hg
    simp [GetGeo, hg]
  · intro g r hg
    simp [GetGeo, hg]
  · intro g r iso hg
    simp [GetGeo, hg]
  · intro env fs hopen
    constructor
    · simp [NewGeo, hopen]
    · intro c
      simp [NewGeo, GetGeo, hopen]
  · intro env fs r hopen
    simp [NewGeo, hopen]

theorem getGeo_sentinel_and_degraded_open_witness :
    GetGeo ⟨none⟩ (CountryOutcome.code "US") = "N/A" ∧
    GetGeo ⟨some 0⟩ CountryOutcome.fail = "N/A" ∧
    GetGeo ⟨some 0⟩ (CountryOutcome.code "US") = "US" ∧
    (NewGeo ⟨⟨StatResult.absent, none, 0⟩, ⟨none, true, [], false, true⟩, none⟩
        ⟨none, none⟩).1.geoReader = none ∧
    GetGeo
        (NewGeo ⟨⟨StatResult.absent, none, 0⟩, ⟨none, true, [], false, true⟩,
          none⟩ ⟨none, none⟩).1 (CountryOutcome.code "FR") = "N/A" := by
  refine ⟨?_, ?_, ?_, ?_, ?_⟩
  · exact getGeo_sentinel_and_degraded_open.1 ⟨none⟩ (CountryOutcome.code "US") rfl
  · exact getGeo_sentinel_and_degraded_open.2.1 ⟨some 0⟩ 0 rfl
  · exact getGeo_sentinel_and_degraded_open.2.2.1 ⟨some 0⟩ 0 "US" rfl
  · exact (getGeo_sentinel_and_degraded_open.2.2.2.1
      ⟨⟨StatResult.absent, none, 0⟩, ⟨none, true, [], false, true⟩, none⟩
      ⟨none, none⟩ rfl).1
  · exact (getGeo_sentinel_and_degraded_open.2.2.2.1
      ⟨⟨StatResult.absent, none, 0⟩, ⟨none, true, [], false, true⟩, none⟩
      ⟨none, none⟩ rfl).2 (CountryOutcome.code "FR")

/-- C8: once `Stop` has cancelled the token, the worker loop's done-check at
the top of each iteration fires before any probe starts, so a worker
checking at or after the stop time probes no further host; the done-signal
is level-triggered (persistent); and `Stop` is a pure token update — it
cancels and waits for nothing. -/
theorem stop_halts_workers (t : CancelToken) (now : Nat) (hosts : List Host)
    (hpast : ∀ k, t.cancelledAt = some k → k ≤ now) :
    (∀ i, now ≤ i → workerRun (ScannerStop t now) hosts i = []) ∧
    (∀ i j, i ≤ j → (ScannerStop t now).done i = true →
        (ScannerStop t now).done j = true) ∧
    (ScannerStop t now).cancelledAt ≠ none := by
  have hca : ∃ k, (ScannerStop t now).cancelledAt = some k ∧ k ≤ now := by
    unfold ScannerStop
    rcases ht : t.cancelledAt with _ | k
    · exact ⟨now, rfl, le_rfl⟩
    · exact ⟨k, rfl, hpast k ht⟩
  obtain ⟨k, hk, hkn⟩ := hca
  refine ⟨?_, ?_, ?_⟩
  · intro i hi
    cases hosts with
    | nil => rfl
    | cons h rest =>
        have hdone : (ScannerStop t now).done i = true := by
          unfold CancelToken.done
          rw [hk]
          simpa using le_trans hkn hi
        unfold workerRun
        rw [hdone]
        simp
  · intro i j hij hdi
    unfold CancelToken.done at hdi ⊢
    rw [hk] at hdi ⊢
    simp only [decide_eq_true_eq] at hdi ⊢
    exact le_trans hdi hij
  · rw [hk]
    simp

theorem stop_halts_workers_witness :
    workerRun (ScannerStop ⟨none⟩ 0)
      [⟨some "1.2.3.4", "1.2.3.4", HostType.ip⟩] 0 = [] :=
  (stop_halts_workers ⟨none⟩ 0 [⟨some "1.2.3.4", "1.2.3.4", HostType.ip⟩]
    (by intro k hk; simp at hk)).1 0 le_rfl

/-- C9 counterexample: a host skipped for failed resolution does emit a
debug log event even though `Verbose` is false, refuting "no log event is
emitted when config.verbose is false" for the resolution stage. -/
theorem resolution_failure_logs_when_not_verbose :
    ScanTLSWithCallbacks ⟨none, "example.com", HostType.domain⟩
        ⟨⟨443, 2, 10, false, false⟩, some ⟨true, true⟩⟩
        ⟨none, true, true, true, ⟨0x0304, "h2", []⟩, "N/A"⟩ =
      [GuiEvent.log "debug" "Failed to get IP from example.com"] := by
  decide

/-- C9 (amended): with `Verbose = false`, hosts skipped at the dial,
handshake, or missing-certificate stage emit no log event at all; a host
skipped at the resolution stage, however, emits a debug log regardless of
`Verbose` whenever a log sink is set. -/
theorem skipped_hosts_silent_except_resolution (host : Host)
    (scanner : ScannerM) (env : ProbeEnv)
    (hverb : scanner.config.Verbose = false) :
    ((resolvedIP host env).isSome = true → env.dialOk = false →
        ScanTLSWithCallbacks host scanner env = []) ∧
    ((resolvedIP host env).isSome = true → env.dialOk = true →
        env.setDeadlineOk = true → env.handshakeOk = false →
        ScanTLSWithCallbacks host scanner env = []) ∧
    (handshakeCompleted host env = true → env.connState.peerCerts = [] →
        ScanTLSWithCallbacks host scanner env = []) ∧
    (resolvedIP host env = none → scanner.onLogSet = true →
        ScanTLSWithCallbacks host scanner env =
          [GuiEvent.log "debug" ("Failed to get IP from " ++ host.origin)]) := by
  refine ⟨?_, ?_, ?_, ?_⟩
  · intro hres hdial
    rcases hip : resolvedIP host env with _ | ip
    · rw [hip] at hres; simp at hres
    · simp [ScanTLSWithCallbacks, hip, hdial, hverb]
  · intro hres hdial hdl hhs
    rcases hip : resolvedIP host env with _ | ip
    · rw [hip] at hres; simp at hres
    · simp [ScanTLSWithCallbacks, hip, hdial, hdl, hhs, hverb]
  · intro hhs hcerts
    unfold handshakeCompleted at hhs
    rcases hip : resolvedIP host env with _ | ip <;> rw [hip] at hhs
    · simp at hhs
    · simp only [Option.isSome_some, Bool.true_and, Bool.and_eq_true] at hhs
      obtain ⟨⟨hdial, hdl⟩, hhsk⟩ := hhs
      simp [ScanTLSWithCallbacks, hip, hdial, hdl, hhsk, hcerts, hverb]
  · intro hres hl
    simp [ScanTLSWithCallbacks, hres, hl]

theorem skipped_hosts_silent_except_resolution_witness :
    ScanTLSWithCallbacks ⟨some "5.5.5.5", "5.5.5.5", HostType.ip⟩
        ⟨⟨443, 2, 10, false, false⟩, some ⟨true, true⟩⟩
        ⟨none, false, true, true, ⟨0, "", []⟩, "N/A"⟩ = [] :=
  (skipped_hosts_silent_except_resolution
    ⟨some "5.5.5.5", "5.5.5.5", HostType.ip⟩
    ⟨⟨443, 2, 10, false, false⟩, some ⟨true, true⟩⟩
    ⟨none, false, true, true, ⟨0, "", []⟩, "N/A"⟩ rfl).1 rfl rfl

/-- C10: when the dial succeeds but `SetDeadline` fails, the callback-based
prober returns with no event of any kind (no result, no log at any level),
while the legacy channel-based prober logs the failure at error level and
also emits no row. -/
theorem deadline_failure_silent_in_callback_prober (host : Host)
    (scanner : ScannerM) (env : ProbeEnv) (config : ScanConfig)
    (hres : (resolvedIP host env).isSome = true)
    (hdial : env.dialOk = true) (hdl : env.setDeadlineOk = false) :
    ScanTLSWithCallbacks host scanner env = [] ∧
    (ScanTLS host config env).events =
      [CliEvent.slogEvent "error" "Error setting deadline"] ∧
    (ScanTLS host config env).panicked = false := by
  rcases hip : resolvedIP host env with _ | ip
  · rw [hip] at hres; simp at hres
  · refine ⟨?_, ?_, ?_⟩ <;> simp [ScanTLSWithCallbacks, ScanTLS, hip, hdial, hdl]

theorem deadline_failure_silent_in_callback_prober_witness :
    ScanTLSWithCallbacks ⟨some "6.6.6.6", "6.6.6.6", HostType.ip⟩
        ⟨⟨443, 2, 10, false, true⟩, some ⟨true, true⟩⟩
        ⟨none, true, false, true, ⟨0, "", []⟩, "N/A"⟩ = [] ∧
    (ScanTLS ⟨some "6.6.6.6", "6.6.6.6", HostType.ip⟩ ⟨443, 2, 10, false, true⟩
        ⟨none, true, false, true, ⟨0, "", []⟩, "N/A"⟩).events =
      [CliEvent.slogEvent "error" "Error setting deadline"] := by
  have h := deadline_failure_silent_in_callback_prober
    ⟨some "6.6.6.6", "6.6.6.6", HostType.ip⟩
    ⟨⟨443, 2, 10, false, true⟩, some ⟨true, true⟩⟩
    ⟨none, true, false, true, ⟨0, "", []⟩, "N/A"⟩ ⟨443, 2, 10, false, true⟩
    rfl rfl rfl
  exact ⟨h.1, h.2.1⟩

/-- Invariant of the lookup/refresh race: lock possession matches each
thread's program counter, the two critical sections exclude each other, the
handle and closed-flag track the refresh's progress, and every recorded
observation is of the old reader or the new one (and of an unclosed object
whenever the swap's open succeeds). -/
def raceInv (openOk : Bool) (s : GeoRace) : Prop :=
  (s.lockHeldByLookup = true ↔
    (s.lpc = LookupPc.locked ∨ s.lpc = LookupPc.unlocking)) ∧
  (s.lockHeldByRefresh = true ↔
    (s.rpc = RefreshPc.locked ∨ s.rpc = RefreshPc.closedOld ∨
      s.rpc = RefreshPc.installed)) ∧
  ¬(s.lockHeldByLookup = true ∧ s.lockHeldByRefresh = true) ∧
  ((s.rpc = RefreshPc.start ∨ s.rpc = RefreshPc.locked) →
    s.handle = some 0 ∧ s.closed0 = false) ∧
  (s.rpc = RefreshPc.closedOld → s.handle = some 0 ∧ s.closed0 = true) ∧
  ((s.rpc = RefreshPc.installed ∨ s.rpc = RefreshPc.finished) →
    s.closed0 = true ∧
      (if openOk then s.handle = some 1 else s.handle = some 0)) ∧
  (∀ h b, s.observed = some (h, b) →
    (h = 0 ∨ h = 1) ∧ (openOk = true → b = false))

theorem raceInv_lookupStep (openOk : Bool) (s : GeoRace)
    (hinv : raceInv openOk s) : raceInv openOk (lookupStep s) := by
  obtain ⟨h1, h2, h3, h4, h5, h6, h7⟩ := hinv
  cases hl : s.lpc with
  | start =>
      rw [hl] at h1
      simp only [reduceCtorEq, or_self, iff_false, Bool.not_eq_true] at h1
      cases hh : s.handle with
      | none =>
          have hstep : lookupStep s = { s with lpc := LookupPc.finished } := by
            unfold lookupStep
            rw [hl, hh]
          rw [hstep]
          exact ⟨by simp [h1], h2, by simp [h1], h4, h5, h6, h7⟩
      | some v =>
          have hstep : lookupStep s = { s with lpc := LookupPc.acquiring } := by
            unfold lookupStep
            rw [hl, hh]
          rw [hstep]
          exact ⟨by simp [h1], h2, by simp [h1], h4, h5, h6, h7⟩
  | acquiring =>
      rw [hl] at h1
      simp only [reduceCtorEq, or_self, iff_false, Bool.not_eq_true] at h1
      cases hb : (s.lockHeldByRefresh || s.lockHeldByLookup) with
      | true =>
          have hstep : lookupStep s = s := by
            unfold lookupStep
            rw [hl, hb]
            simp
          rw [hstep]
          exact ⟨by rw [hl]; simp [h1], h2, by simp [h1], h4, h5, h6, h7⟩
      | false =>
          simp only [Bool.or_eq_false_iff] at hb
          have hstep : lookupStep s =
              { s with lockHeldByLookup := true, lpc := LookupPc.locked } := by
            unfold lookupStep
            rw [hl, hb.1, hb.2]
            simp
          rw [hstep]
          refine ⟨by simp, ?_, by simp [hb.1], h4, h5, h6, h7⟩
          simpa using h2
  | locked =>
      have hlk : s.lockHeldByLookup = true := h1.mpr (Or.inl hl)
      have hrf : s.lockHeldByRefresh = false := by
        cases hr : s.lockHeldByRefresh with
        | false => rfl
        | true => exact absurd ⟨hlk, hr⟩ h3
      have hrpc : s.rpc = RefreshPc.start ∨ s.rpc = RefreshPc.finished := by
        cases hr : s.rpc with
        | start => exact Or.inl rfl
        | finished => exact Or.inr rfl
        | locked => rw [hr] at h2; simp [hrf] at h2
        | closedOld => rw [hr] at h2; simp [hrf] at h2
        | installed => rw [hr] at h2; simp [hrf] at h2
      cases hh : s.handle with
      | none =>
          have hstep : lookupStep s = { s with lpc := LookupPc.unlocking } := by
            unfold lookupStep
            rw [hl, hh]
          rw [hstep]
          exact ⟨by rw [hl] at h1; simpa using h1.mpr (Or.inl rfl), h2,
            by simpa using h3, h4, h5, h6, h7⟩
      | some v =>
          have hstep : lookupStep s = { s with lpc := LookupPc.unlocking, observed := some (v, if v = 0 then s.closed0 else false) } := by
            unfold lookupStep
            rw [hl, hh]
          rw [hstep]
          refine ⟨by simp [hlk], h2, by simpa using h3, h4, h5, h6, ?_⟩
          intro h b hob
          simp only [Option.some.injEq, Prod.mk.injEq] at hob
          obtain ⟨hhv, hbv⟩ := hob
      -- the observation just recorded: the refresh is outside its
      -- critical section, so the handle is the old reader (still open)
      -- or the newly installed one
          rcases hrpc with hr | hr
          · obtain ⟨hh0, hc0⟩ := h4 (Or.inl hr)
            rw [hh] at hh0
            injection hh0 with hv0
            constructor
            · left
              omega
            · intro _
              rw [← hbv, ← hv0]
              simp [hc0]
          · obtain ⟨hc1, hhand⟩ := h6 (Or.inr hr)
            cases hok : openOk with
            | true =>
                rw [hok] at hhand
                simp only [if_true] at hhand
                rw [hh] at hhand
                injection hhand with hv1
                constructor
                · right
                  omega
                · intro _
                  rw [← hbv, hv1]
                  simp
            | false =>
                rw [hok] at hhand
                simp only [Bool.false_eq_true, if_false] at hhand
                rw [hh] at hhand
                injection hhand with hv0
                constructor
                · left
                  omega
                · intro hcontra
                  simp at hcontra
  | unlocking =>
      have hstep : lookupStep s =
          { s with lockHeldByLookup := false, lpc := LookupPc.finished } := by
        unfold lookupStep
        rw [hl]
      rw [hstep]
      refine ⟨by simp, ?_, by simp, h4, h5, h6, h7⟩
      simpa using h2
  | finished =>
      have hstep : lookupStep s = s := by
        unfold lookupStep
        rw [hl]
      rw [hstep]
      exact ⟨h1, h2, h3, h4, h5, h6, h7⟩

theorem raceInv_refreshStep (openOk : Bool) (s : GeoRace)
    (hinv : raceInv openOk s) : raceInv openOk (refreshStep openOk s) := by
  obtain ⟨h1, h2, h3, h4, h5, h6, h7⟩ := hinv
  cases hr : s.rpc with
  | start =>
      rw [hr] at h2
      simp only [reduceCtorEq, or_self, iff_false, Bool.not_eq_true] at h2
      obtain ⟨hh0, hc0⟩ := h4 (Or.inl hr)
      cases hb : (s.lockHeldByLookup || s.lockHeldByRefresh) with
      | true =>
          have hstep : refreshStep openOk s = s := by
            unfold refreshStep
            rw [hr, hb]
            simp
          rw [hstep]
          refine ⟨h1, ?_, h3, h4, h5, h6, h7⟩
          rw [hr]
          simp [h2]
      | false =>
          simp only [Bool.or_eq_false_iff] at hb
          have hstep : refreshStep openOk s = { s with lockHeldByRefresh := true, rpc := RefreshPc.locked } := by
            unfold refreshStep
            rw [hr, hb.1, hb.2]
            simp
          rw [hstep]
          refine ⟨?_, by simp, by simp [hb.1], ?_, ?_, ?_, h7⟩
          · simpa using h1
          · intro _
            exact ⟨hh0, hc0⟩
          · intro hbad
            simp at hbad
          · intro hbad
            simp at hbad
  | locked =>
      obtain ⟨hh0, hc0⟩ := h4 (Or.inr hr)
      have hstep : refreshStep openOk s = { s with closed0 := true, rpc := RefreshPc.closedOld } := by
        unfold refreshStep
        rw [hr, hh0]
      rw [hstep]
      refine ⟨by simpa using h1, ?_, by simpa using h3, ?_, ?_, ?_, h7⟩
      · have hlock : s.lockHeldByRefresh = true := h2.mpr (Or.inl hr)
        simp [hlock]
      · intro hbad
        simp at hbad
      · intro _
        exact ⟨hh0, rfl⟩
      · intro hbad
        simp at hbad
  | closedOld =>
      obtain ⟨hh0, hc1⟩ := h5 hr
      have hlock : s.lockHeldByRefresh = true := h2.mpr (Or.inr (Or.inl hr))
      cases hok : openOk with
      | true =>
          subst hok
          have hstep : refreshStep true s = { s with handle := some 1, rpc := RefreshPc.installed } := by
            unfold refreshStep
            rw [hr]
            simp
          rw [hstep]
          refine ⟨by simpa using h1, by simp [hlock], by simpa using h3,
            ?_, ?_, ?_, h7⟩
          · intro hbad
            simp at hbad
          · intro hbad
            simp at hbad
          · intro _
            exact ⟨hc1, by simp⟩
      | false =>
          subst hok
          have hstep : refreshStep false s = { s with rpc := RefreshPc.installed } := by
            unfold refreshStep
            rw [hr]
            simp
          rw [hstep]
          refine ⟨by simpa using h1, by simp [hlock], by simpa using h3,
            ?_, ?_, ?_, h7⟩
          · intro hbad
            simp at hbad
          · intro hbad
            simp at hbad
          · intro _
            exact ⟨hc1, by simp [hh0]⟩
  | installed =>
      have hfacts := h6 (Or.inl hr)
      have hstep : refreshStep openOk s = { s with lockHeldByRefresh := false, rpc := RefreshPc.finished } := by
        unfold refreshStep
        rw [hr]
      rw [hstep]
      refine ⟨by simpa using h1, by simp, by simp, ?_, ?_, ?_, h7⟩
      · intro hbad
        simp at hbad
      · intro hbad
        simp at hbad
      · intro _
        exact hfacts
  | finished =>
      have hstep : refreshStep openOk s = s := by
        unfold refreshStep
        rw [hr]
      rw [hstep]
      exact ⟨h1, h2, h3, h4, h5, h6, h7⟩

theorem raceInv_init (openOk : Bool) : raceInv openOk geoRaceInit := by
  unfold raceInv geoRaceInit
  refine ⟨by simp, by simp, by simp, ?_, ?_, ?_, ?_⟩
  · intro _
    exact ⟨rfl, rfl⟩
  · intro hbad
    simp at hbad
  · intro hbad
    simp at hbad
  · intro h b hob
    simp at hob

theorem raceInv_run (openOk : Bool) (sched : List Bool) :
    raceInv openOk (geoRaceRun openOk sched) := by
  unfold geoRaceRun
  have hgen : ∀ (l : List Bool) (s : GeoRace), raceInv openOk s →
      raceInv openOk
        (l.foldl (fun s w => if w then lookupStep s else refreshStep openOk s)
          s) := by
    intro l
    induction l with
    | nil =>
        intro s hs
        simpa using hs
    | cons w tl ih =>
        intro s hs
        simp only [List.foldl_cons]
        apply ih
        cases w
        · simpa using raceInv_refreshStep openOk s hs
        · simpa using raceInv_lookupStep openOk s hs
  exact hgen sched geoRaceInit (raceInv_init openOk)

/-- C7: in every interleaving of one `GetGeo` call with the reader swap of
one `CheckAndUpdate` call, the handle value the lookup reads under the
mutex is the old reader or the new one — never an intermediate — and, when
the swap's reopen succeeds, the reader object it reads is never one that
has been closed: the same mutex guards the lookup's read and the refresh's
close-and-replace. -/
theorem lookup_observes_old_or_new_handle (openOk : Bool) (sched : List Bool)
    (h : Nat) (b : Bool)
    (hobs : (geoRaceRun openOk sched).observed = some (h, b)) :
    (h = 0 ∨ h = 1) ∧ (openOk = true → b = false) :=
  (raceInv_run openOk sched).2.2.2.2.2.2 h b hobs

theorem lookup_observes_old_or_new_handle_witness :
    (geoRaceRun true [false, true, true, false, false, false, true, true]).observed = some (1, false) ∧
    ((1 = 0 ∨ 1 = 1) ∧ (true = true → false = false)) :=
  ⟨by decide,
    lookup_observes_old_or_new_handle true
      [false, true, true, false, false, false, true, true] 1 false (by decide)⟩
